import Mathlib

/-!
Verification of the geometry-tiling core of `wmsget` (`src/wmsget/geom.py`):
the Dimension Resolver `get_dims` and the Polygon Tiler `split_geom`.

Coordinates, resolutions and areas are modelled exactly as rationals (`ℚ`);
the Python code computes with IEEE floats, but every concrete input used
below is exactly representable and every arithmetic step stays exact, so the
rational model agrees with the float execution on these inputs.

Python's `int(x)` truncates toward zero; numpy's `ceil` is the mathematical
ceiling.  Python exceptions are modelled by `Except`.

The external `shapely`/`geopandas` geometry capability (line-splitting,
polygonize, intersection area, touches, union, buffering) is not code of
this repository; it is modelled as an abstract `GeomOps` record, exactly as
the spec describes it ("an injected polygon/geometry capability").  Area and
bounds queries of plain polygons are given their standard concrete meaning
(shoelace formula, coordinate min/max), so concrete inputs evaluate.
-/

namespace Wmsget

/-- Python runtime errors that the translated code can raise. -/
inductive PyErr where
  /-- `TypeError: get_dims() got an unexpected keyword argument` —
  raised by the corrective recursive calls in `get_dims`, which pass
  `x_buffer=...`/`y_buffer=...` although the signature of `get_dims` is
  `(bounds, res=.125, padding=None, min_len=256)` with no such keywords. -/
  | typeError
deriving DecidableEq, Repr

/-- An axis-aligned bounding box `(minx, miny, maxx, maxy)`, as returned by
`shapely`'s `geometry.bounds`. -/
structure Bounds where
  minx : ℚ
  miny : ℚ
  maxx : ℚ
  maxy : ℚ
deriving DecidableEq, Repr

/-- The `padding` argument of `get_dims`: `None`, a single int, or a
`(y, x)` pair of ints (`geom.py` lines 105-110). -/
inductive Padding where
  | none
  | int (p : ℤ)
  | pair (y x : ℤ)
deriving DecidableEq, Repr

/-- Python `int(q)`: truncation toward zero. -/
def pyInt (q : ℚ) : ℤ := if 0 ≤ q then ⌊q⌋ else ⌈q⌉

/-- Translation of `get_dims` (`geom.py` lines 79-131).

The padded bounds and the pixel `width`/`height` are computed exactly as in
lines 105-118.  Lines 119-130 then attempt a corrective recursive call
`get_dims((minx, miny, maxx, maxy), x_buffer=..., y_buffer=...)` whenever
`width < min_len` (and, failing that, whenever `height < min_len`); since
`get_dims` accepts no keyword arguments named `x_buffer`/`y_buffer`, that
call raises `TypeError` before any recursion happens, which is modelled by
`Except.error PyErr.typeError`.

Division by a zero `res` would raise `ZeroDivisionError` in Python; all
claims constrain `res > 0`, and every use below has `res > 0`. -/
def get_dims (bounds : Bounds) (res : ℚ) (padding : Padding) (min_len : ℤ) :
    Except PyErr (Bounds × ℤ × ℤ) :=
  let yx : ℚ × ℚ :=
    match padding with
    | Padding.none => (0, 0)
    | Padding.int p => ((p : ℚ), (p : ℚ))
    | Padding.pair y x => ((y : ℚ), (x : ℚ))
  let minx := bounds.minx - yx.2
  let miny := bounds.miny - yx.1
  let maxx := bounds.maxx + yx.2
  let maxy := bounds.maxy + yx.1
  let width := pyInt ((maxx - minx) / res)
  let height := pyInt ((maxy - miny) / res)
  if width < min_len then
    Except.error PyErr.typeError
  else if height < min_len then
    Except.error PyErr.typeError
  else
    Except.ok (⟨minx, miny, maxx, maxy⟩, width, height)

/-- A polygon, as its exterior-ring vertex list (the closing repetition of
the first vertex is left implicit).  Holes play no role in any claim. -/
structure Polygon where
  ring : List (ℚ × ℚ)
deriving DecidableEq, Repr

/-- Twice the signed shoelace sum of the ring `v0 :: ...`, closing back to
`v0`. -/
def shoelaceAux (v0 : ℚ × ℚ) : List (ℚ × ℚ) → ℚ
  | [] => 0
  | [v] => v.1 * v0.2 - v0.1 * v.2
  | v :: w :: rest => (v.1 * w.2 - w.1 * v.2) + shoelaceAux v0 (w :: rest)

/-- `shapely` `geometry.area`: absolute shoelace area of the exterior ring. -/
def Polygon.area (p : Polygon) : ℚ :=
  match p.ring with
  | [] => 0
  | v :: rest => |shoelaceAux v (v :: rest)| / 2

/-- `shapely` `geometry.bounds`: coordinate-wise min/max over the vertices.
(The concrete polygons below are all nonempty; shapely's empty-geometry
bounds are not needed.) -/
def Polygon.bounds (p : Polygon) : Bounds :=
  match p.ring with
  | [] => ⟨0, 0, 0, 0⟩
  | v :: vs => vs.foldl
      (fun b w => ⟨min b.minx w.1, min b.miny w.2, max b.maxx w.1, max b.maxy w.2⟩)
      ⟨v.1, v.2, v.1, v.2⟩

/-- A cut line (`shapely.geometry.LineString` with two endpoints). -/
structure Line where
  p : ℚ × ℚ
  q : ℚ × ℚ
deriving DecidableEq, Repr

/-- The injected polygon/geometry capability (spec §6): the `shapely` /
`geopandas` operations `split_geom` consumes.  `lineSplit g l` is
`shapely.ops.split(g, l).geoms`; `polygonizeExteriors gs` is
`polygonize(GeoSeries(gs).exterior.union_all())`; `interArea g h` is
`g.intersection(h).area`; `buffer g d` is
`g.buffer(d, cap_style='square', join_style='mitre')` (the two style
arguments are fixed strings in the code, so they are left implicit). -/
structure GeomOps where
  lineSplit : Polygon → Line → List Polygon
  polygonizeExteriors : List Polygon → List Polygon
  interArea : Polygon → Polygon → ℚ
  touches : Polygon → Polygon → Bool
  union : Polygon → Polygon → Polygon
  buffer : Polygon → ℤ → Polygon

/-- A degenerate concrete instance of the geometry capability, used to
close theorems at explicit inputs.  On every code path exercised with it
below, either the capability is not consulted at all (the `TypeError` and
no-cut-lines paths are independent of `ops`) or only the stated
monotonicity hypotheses about it are used. -/
def trivialOps : GeomOps where
  lineSplit g _ := [g]
  polygonizeExteriors gs := gs
  interArea g _ := g.area
  touches _ _ := false
  union g _ := g
  buffer g _ := g

/-- One pass of the sliver-absorption loop body (`geom.py` lines 70-73) for
a single sliver `s`: find the first tile in current order that touches `s`
(`gdf[gdf.touches(sliver.geometry)]`, then `.iloc[0]`) and replace it in
place by its union with `s`; if no tile touches, `s` is dropped. -/
def merge1 (ops : GeomOps) : List Polygon → Polygon → List Polygon
  | [], _ => []
  | t :: ts, s => if ops.touches t s then ops.union t s :: ts else t :: merge1 ops ts s

/-- The sliver-absorption loop (`geom.py` lines 69-73): fold `merge1` over
the slivers in their iteration order. -/
def absorb (ops : GeomOps) (tiles slivers : List Polygon) : List Polygon :=
  slivers.foldl (merge1 ops) tiles

/-- The interior points of `np.linspace(a, b, n)`, i.e. the `[1:-1]` slice:
`a + k*(b-a)/(n-1)` for `k = 1, ..., n-2` (`geom.py` lines 50, 54). -/
def linspaceInterior (a b : ℚ) (n : ℕ) : List ℚ :=
  (((List.range n).drop 1).dropLast).map fun (k : ℕ) =>
    a + (k : ℚ) * (b - a) / ((n : ℚ) - 1)

/-- `m` evenly spaced interior cut coordinates strictly between `a` and `b`:
`a + (j+1)*(b-a)/(m+1)` for `j = 0, ..., m-1`.  `linspaceInterior a b (m+2)`
equals `evenCuts a b m`. -/
def evenCuts (a b : ℚ) (m : ℕ) : List ℚ :=
  (List.range m).map fun (j : ℕ) => a + ((j : ℚ) + 1) * (b - a) / ((m : ℚ) + 1)

/-- The cut-line generation of `split_geom` (`geom.py` lines 48-56):
vertical lines first (if `width > max_len`), then horizontal lines (if
`height > max_len`), each group taken from the interior of an
`np.linspace` with `1 + int(np.ceil(side / res / max_len))` points.
A nonpositive point count would make `np.linspace` raise; it cannot occur
under the claims' constraint `res > 0` (then the count is at least 1), and
`Int.toNat` maps the impossible negative case to an empty slice. -/
def cutLines (bnd : Bounds) (res : ℚ) (max_len : ℤ) (width height : ℤ) : List Line :=
  let xs := if max_len < width then
      linspaceInterior bnd.minx bnd.maxx
        (1 + ⌈(bnd.maxx - bnd.minx) / res / (max_len : ℚ)⌉).toNat
    else []
  let ys := if max_len < height then
      linspaceInterior bnd.miny bnd.maxy
        (1 + ⌈(bnd.maxy - bnd.miny) / res / (max_len : ℚ)⌉).toNat
    else []
  (xs.map fun x => Line.mk (x, bnd.miny) (x, bnd.maxy))
    ++ (ys.map fun y => Line.mk (bnd.minx, y) (bnd.maxx, y))

/-- The Dimension Resolver call made by `split_geom` (`geom.py` line 47):
`get_dims(geometry.bounds, **kwargs)`.  `res` is a named positional
parameter of `split_geom`, so it can never be part of `**kwargs`; the
resolver therefore always runs at its default resolution `0.125`.  The
`**kwargs` that can be forwarded are `padding` and `min_len`. -/
def splitDims (geometry : Polygon) (padding : Padding) (min_len : ℤ) :
    Except PyErr (Bounds × ℤ × ℤ) :=
  get_dims geometry.bounds (1/8) padding min_len

/-- The multi-tile pipeline of `split_geom` (`geom.py` lines 59-75): split
the input along every cut line and collect the fragments, reconstruct
regions from the union of the fragment boundaries, drop regions of area
`≤ 1`, drop regions whose intersection with the input has area `≤ 10`,
separate slivers (area `< 100`) from tiles (area `≥ 100`), absorb each
sliver into the first touching tile, and buffer every resulting tile. -/
def tilePipeline (ops : GeomOps) (geometry : Polygon) (lines : List Line) (buffer : ℤ) :
    List Polygon :=
  let frags := lines.foldl (fun acc l => acc ++ ops.lineSplit geometry l) []
  let regions := ops.polygonizeExteriors frags
  let f1 := regions.filter fun g => decide ((1 : ℚ) < g.area)
  let f2 := f1.filter fun g => decide ((10 : ℚ) < ops.interArea g geometry)
  let slivers := f2.filter fun g => decide (g.area < (100 : ℚ))
  let tiles := f2.filter fun g => decide ((100 : ℚ) ≤ g.area)
  (absorb ops tiles slivers).map fun g => ops.buffer g buffer

/-- Translation of `split_geom` (`geom.py` lines 18-76).  The `crs`
argument only tags the intermediate `GeoSeries` and has no effect on the
returned geometries, so it is omitted.  `reset_index(drop=True)` is the
identity on the underlying geometry list. -/
def split_geom (ops : GeomOps) (geometry : Polygon) (res : ℚ) (max_len : ℤ)
    (buffer : ℤ) (padding : Padding) (min_len : ℤ) : Except PyErr (List Polygon) :=
  match splitDims geometry padding min_len with
  | Except.error e => Except.error e
  | Except.ok (b, w, h) =>
      let lines := cutLines b res max_len w h
      if lines.isEmpty then Except.ok [geometry]
      else Except.ok (tilePipeline ops geometry lines buffer)

/-- The unit square `(0,0)-(1,1)`. -/
def unitSquare : Polygon := ⟨[(0, 0), (1, 0), (1, 1), (0, 1)]⟩

/-- The square `(0,0)-(2,2)`. -/
def twoSquare : Polygon := ⟨[(0, 0), (2, 0), (2, 2), (0, 2)]⟩

/-- The square `(0,0)-(100,100)`. -/
def square100 : Polygon := ⟨[(0, 0), (100, 0), (100, 100), (0, 100)]⟩

/-- The square `(0,0)-(1000,1000)` of the spec's small-input scenario. -/
def thousandSquare : Polygon := ⟨[(0, 0), (1000, 0), (1000, 1000), (0, 1000)]⟩

/-- A thin triangle of area `20` whose bounding box is `(0,0,41,40)`. -/
def thinTriangle : Polygon := ⟨[(0, 0), (40, 40), (41, 40)]⟩

/-- The rectangle `(0,0)-(4001,100)`, wide enough to get one vertical cut
at resolution 1 with `max_len = 4000`. -/
def wideRect : Polygon := ⟨[(0, 0), (4001, 0), (4001, 100), (0, 100)]⟩

/-! ### Helper lemmas -/

theorem pyInt_intCast (n : ℤ) : pyInt (n : ℚ) = n := by
  unfold pyInt
  split
  · exact Int.floor_intCast n
  · exact Int.ceil_intCast n

theorem pyInt_eval (q : ℚ) (n : ℤ) (h0 : 0 ≤ q) (h1 : (n : ℚ) ≤ q) (h2 : q < n + 1) :
    pyInt q = n := by
  unfold pyInt
  rw [if_pos h0]
  exact Int.floor_eq_iff.mpr ⟨h1, by exact_mod_cast h2⟩

theorem pyInt_lit (q : ℚ) (n : ℤ) (h : q = (n : ℚ)) : pyInt q = n := h ▸ pyInt_intCast n

theorem ceil_lit (q : ℚ) (n : ℤ) (h1 : (n : ℚ) - 1 < q) (h2 : q ≤ (n : ℚ)) : ⌈q⌉ = n :=
  Int.ceil_eq_iff.mpr ⟨h1, h2⟩

theorem get_dims_none_ok (b : Bounds) (res : ℚ) (min_len : ℤ)
    (hw : min_len ≤ pyInt ((b.maxx - b.minx) / res))
    (hh : min_len ≤ pyInt ((b.maxy - b.miny) / res)) :
    get_dims b res Padding.none min_len
      = Except.ok (b, pyInt ((b.maxx - b.minx) / res), pyInt ((b.maxy - b.miny) / res)) := by
  simp only [get_dims, sub_zero, add_zero]
  rw [if_neg (not_lt.2 hw), if_neg (not_lt.2 hh)]

theorem get_dims_eval_100 :
    get_dims ⟨0, 0, 100, 100⟩ (1/8) Padding.none 256
      = Except.ok (⟨0, 0, 100, 100⟩, 800, 800) := by
  have h : pyInt ((((⟨0, 0, 100, 100⟩ : Bounds).maxx - (⟨0, 0, 100, 100⟩ : Bounds).minx)) / (1/8))
      = 800 := pyInt_lit _ 800 (by norm_num)
  have := get_dims_none_ok ⟨0, 0, 100, 100⟩ (1/8) 256
    (by rw [h]; norm_num) (by rw [h]; norm_num)
  rw [this, h]

/-! ### Claim theorems: the Dimension Resolver -/

/-- C1: the claim says that for every bounds, `resolution > 0` and
`min_axis_pixels ≥ 1`, `get_dims` returns `width ≥ min_axis_pixels` and
`height ≥ min_axis_pixels` by growing the deficient axis.  The code instead
raises `TypeError` on every input whose width is deficient, because the
corrective recursive call passes keyword arguments `x_buffer`/`y_buffer`
that `get_dims` does not accept.  Failing input (the spec's own §8
scenario): `bounds = (0, 0, 10, 10)`, `resolution = 1`,
`min_axis_pixels = 256`, where `width = 10 < 256`. -/
theorem get_dims_width_correction_raises :
    get_dims ⟨0, 0, 10, 10⟩ 1 Padding.none 256 = Except.error PyErr.typeError := by
  norm_num [get_dims, pyInt]

/-- C7: the claim says the resolver performs at most one corrective
re-resolution per axis and then returns.  In the code no corrective
re-resolution is ever performed: any input needing one raises `TypeError`
from the malformed recursive call (`x_buffer=`/`y_buffer=` keywords that
`get_dims` does not accept) and the resolver never returns.  Failing input
exercising the height branch: `bounds = (0, 0, 1000, 10)`,
`resolution = 1`, `min_axis_pixels = 256` (`width = 1000 ≥ 256`,
`height = 10 < 256`). -/
theorem get_dims_height_correction_raises :
    get_dims ⟨0, 0, 1000, 10⟩ 1 Padding.none 256 = Except.error PyErr.typeError := by
  norm_num [get_dims, pyInt]

/-- C10: with `padding = None` and both computed axes already at least
`min_len`, `get_dims` returns the input bounds unchanged together with the
two pixel dimensions — no expansion occurs (`geom.py` lines 105-118, 131). -/
theorem get_dims_no_padding_identity (b : Bounds) (res : ℚ) (min_len : ℤ)
    (hw : min_len ≤ pyInt ((b.maxx - b.minx) / res))
    (hh : min_len ≤ pyInt ((b.maxy - b.miny) / res)) :
    get_dims b res Padding.none min_len
      = Except.ok (b, pyInt ((b.maxx - b.minx) / res), pyInt ((b.maxy - b.miny) / res)) :=
  get_dims_none_ok b res min_len hw hh

/-- Closed instance of `get_dims_no_padding_identity`: bounds
`(0, 0, 100, 100)` at resolution `1/8` give `width = height = 800 ≥ 256`
and come back unchanged. -/
theorem get_dims_no_padding_identity_witness :
    get_dims ⟨0, 0, 100, 100⟩ (1/8) Padding.none 256
      = Except.ok (⟨0, 0, 100, 100⟩, 800, 800) := by
  have h : pyInt ((((⟨0, 0, 100, 100⟩ : Bounds).maxx - (⟨0, 0, 100, 100⟩ : Bounds).minx)) / (1/8))
      = 800 := pyInt_lit _ 800 (by norm_num)
  have := get_dims_no_padding_identity ⟨0, 0, 100, 100⟩ (1/8) 256
    (by rw [h]; norm_num) (by rw [h]; norm_num)
  rw [this, h]

theorem square100_bounds : square100.bounds = ⟨0, 0, 100, 100⟩ := by
  norm_num [square100, Polygon.bounds, List.foldl_cons, List.foldl_nil, min_def, max_def]

theorem splitDims_square100 :
    splitDims square100 Padding.none 256 = Except.ok (⟨0, 0, 100, 100⟩, 800, 800) := by
  rw [splitDims, square100_bounds]
  exact get_dims_eval_100

/-- C2: the claim says the width/height that decide whether to split are
computed at the resolution given to `split_geom`, i.e.
`width = floor((maxX-minX)/resolution)`.  In the code
(`geom.py` line 47) `get_dims(geometry.bounds, **kwargs)` does not forward
`res` — `res` is a named parameter of `split_geom`, so it can never be in
`**kwargs` — and the resolver runs at its default resolution `0.125`.
Failing input: the `(0,0)-(100,100)` square split at `resolution = 1/100`:
the claim's width is `floor(100/(1/100)) = 10000`, the code computes
`int(100/0.125) = 800`; consequently the decision `800 ≤ 4000` produces a
single tile although the claimed width `10000 > 4000` mandates a split. -/
theorem splitDims_ignores_resolution :
    splitDims square100 Padding.none 256 = Except.ok (⟨0, 0, 100, 100⟩, 800, 800)
      ∧ pyInt ((100 - 0) / (1/100)) = 10000
      ∧ (800 : ℤ) ≠ 10000
      ∧ ∀ ops : GeomOps, split_geom ops square100 (1/100) 4000 0 Padding.none 256
          = Except.ok [square100] := by
  refine ⟨splitDims_square100, ?_, by norm_num, ?_⟩
  · rw [show (100 - 0 : ℚ) / (1/100) = ((10000 : ℤ) : ℚ) by norm_num]
    exact pyInt_intCast 10000
  · intro ops
    rw [split_geom, splitDims_square100]
    norm_num [cutLines, List.isEmpty]

theorem unitSquare_bounds : unitSquare.bounds = ⟨0, 0, 1, 1⟩ := by
  norm_num [unitSquare, Polygon.bounds, List.foldl_cons, List.foldl_nil, min_def, max_def]

theorem twoSquare_bounds : twoSquare.bounds = ⟨0, 0, 2, 2⟩ := by
  norm_num [twoSquare, Polygon.bounds, List.foldl_cons, List.foldl_nil, min_def, max_def]

/-- C3: the claim says `split_geom` never raises for well-formed simple
polygon input.  It raises for every polygon whose bounds are narrower than
32 georeferenced units on either axis: the resolver (always invoked at its
default resolution `0.125`) then computes an axis below 256 pixels and its
broken corrective call raises `TypeError`.  Failing input: the well-formed
unit square `(0,0)-(1,1)` at `resolution = 1` (`width = int(1/0.125) = 8 <
256`); the result holds for every geometry capability `ops`. -/
theorem split_geom_raises_on_small_polygon :
    ∀ ops : GeomOps, split_geom ops unitSquare 1 4000 0 Padding.none 256
      = Except.error PyErr.typeError := by
  intro ops
  rw [split_geom, splitDims, unitSquare_bounds]
  norm_num [get_dims, pyInt]

/-- C4: the claim says that whenever the geometry's bounds at the given
resolution already satisfy `width ≤ max_axis_pixels` and
`height ≤ max_axis_pixels`, `split_geom` returns a single tile equal to the
input.  Failing input: the square `(0,0)-(2,2)` at `resolution = 1`,
`max_axis_pixels = 4000` satisfies the premise (`width = height = 2 ≤
4000`), yet `split_geom` raises `TypeError`: the resolver runs at its
default resolution `0.125`, computes `width = 16 < 256`, and its broken
corrective call fails.  (Premise check: `pyInt ((2-0)/1) = 2 ≤ 4000` is the
first conjunct.) -/
theorem split_geom_not_idempotent_on_small_input :
    pyInt ((2 - 0) / 1) = 2
      ∧ ∀ ops : GeomOps, split_geom ops twoSquare 1 4000 0 Padding.none 256
          = Except.error PyErr.typeError := by
  constructor
  · rw [show (2 - 0 : ℚ) / 1 = ((2 : ℤ) : ℚ) by norm_num]
    exact pyInt_intCast 2
  · intro ops
    rw [split_geom, splitDims, twoSquare_bounds]
    norm_num [get_dims, pyInt]

/-! ### The no-cut-lines path of the Polygon Tiler -/

theorem linspaceInterior_two (a b : ℚ) : linspaceInterior a b 2 = [] := by
  rw [linspaceInterior, show ((List.range 2).drop 1).dropLast = ([] : List ℕ) from by decide]
  rfl

theorem cutLines_nil (bnd : Bounds) (res : ℚ) (max_len w h : ℤ)
    (hxc : max_len < w → (1 + ⌈(bnd.maxx - bnd.minx) / res / (max_len : ℚ)⌉).toNat = 2)
    (hyc : max_len < h → (1 + ⌈(bnd.maxy - bnd.miny) / res / (max_len : ℚ)⌉).toNat = 2) :
    cutLines bnd res max_len w h = [] := by
  simp only [cutLines]
  split_ifs with h1 h2 h2
  · rw [hxc h1, hyc h2, linspaceInterior_two, linspaceInterior_two]; rfl
  · rw [hxc h1, linspaceInterior_two]; rfl
  · rw [hyc h2, linspaceInterior_two]; rfl
  · rfl

theorem thousandSquare_bounds : thousandSquare.bounds = ⟨0, 0, 1000, 1000⟩ := by
  norm_num [thousandSquare, Polygon.bounds, List.foldl_cons, List.foldl_nil, min_def, max_def]

theorem splitDims_thousand :
    splitDims thousandSquare Padding.none 256
      = Except.ok (⟨0, 0, 1000, 1000⟩, 8000, 8000) := by
  rw [splitDims, thousandSquare_bounds]
  have hp : pyInt ((((⟨0, 0, 1000, 1000⟩ : Bounds).maxx
      - (⟨0, 0, 1000, 1000⟩ : Bounds).minx)) / (1/8)) = 8000 := pyInt_lit _ 8000 (by norm_num)
  have := get_dims_none_ok ⟨0, 0, 1000, 1000⟩ (1/8) 256
    (by rw [hp]; norm_num) (by rw [hp]; norm_num)
  rw [this, hp]

theorem cutLines_thousand : cutLines ⟨0, 0, 1000, 1000⟩ 1 4000 8000 8000 = [] := by
  refine cutLines_nil _ _ _ _ _ (fun _ => ?_) (fun _ => ?_) <;>
    rw [ceil_lit _ 1 (by norm_num) (by norm_num)] <;> rfl

theorem split_geom_nil_lines (ops : GeomOps) (geometry : Polygon)
    (res : ℚ) (max_len buffer : ℤ) (padding : Padding) (min_len : ℤ)
    (b : Bounds) (w h : ℤ)
    (hd : splitDims geometry padding min_len = Except.ok (b, w, h))
    (hl : cutLines b res max_len w h = []) :
    split_geom ops geometry res max_len buffer padding min_len = Except.ok [geometry] := by
  rw [split_geom, hd]
  simp [hl]

/-- C8: when the cut-line generation yields no lines, `split_geom` returns
exactly the input geometry as the single tile — independent of the geometry
capability and of `buffer` — so the buffering step (`geom.py` line 74,
reached only on the multi-tile path) is not applied even when
`buffer > 0`. -/
theorem split_geom_no_lines_ignores_buffer (ops : GeomOps) (geometry : Polygon)
    (res : ℚ) (max_len buffer : ℤ) (padding : Padding) (min_len : ℤ)
    (b : Bounds) (w h : ℤ)
    (hd : splitDims geometry padding min_len = Except.ok (b, w, h))
    (hl : cutLines b res max_len w h = []) :
    split_geom ops geometry res max_len buffer padding min_len = Except.ok [geometry] :=
  split_geom_nil_lines ops geometry res max_len buffer padding min_len b w h hd hl

/-- Closed instance of `split_geom_no_lines_ignores_buffer`: the spec's
`(0,0)-(1000,1000)` square at resolution 1 with `max_len = 4000` comes back
as the single unchanged tile even with `buffer = 5`. -/
theorem split_geom_no_lines_ignores_buffer_witness :
    split_geom trivialOps thousandSquare 1 4000 5 Padding.none 256
      = Except.ok [thousandSquare] :=
  split_geom_no_lines_ignores_buffer trivialOps thousandSquare 1 4000 5 Padding.none 256
    ⟨0, 0, 1000, 1000⟩ 8000 8000 splitDims_thousand cutLines_thousand

/-! ### The sliver-absorption loop -/

theorem merge1_length (ops : GeomOps) (ts : List Polygon) (s : Polygon) :
    (merge1 ops ts s).length = ts.length := by
  induction ts with
  | nil => rfl
  | cons t ts ih =>
    simp only [merge1]
    split
    · simp
    · simp [ih]

theorem absorb_length (ops : GeomOps) (tiles slivers : List Polygon) :
    (absorb ops tiles slivers).length = tiles.length := by
  induction slivers generalizing tiles with
  | nil => rfl
  | cons s rest ih =>
    show (absorb ops (merge1 ops tiles s) rest).length = tiles.length
    rw [ih (merge1 ops tiles s), merge1_length]

theorem merge1_getD (ops : GeomOps) (ts : List Polygon) (s : Polygon) (i : ℕ) (d : Polygon) :
    (merge1 ops ts s).getD i d = ts.getD i d ∨
      (merge1 ops ts s).getD i d = ops.union (ts.getD i d) s := by
  induction ts generalizing i with
  | nil => left; rfl
  | cons t ts ih =>
    simp only [merge1]
    split
    · cases i with
      | zero => right; rfl
      | succ j => left; rfl
    · cases i with
      | zero => left; rfl
      | succ j => simpa [List.getD_cons_succ] using ih j

theorem absorb_getD (ops : GeomOps) (slivers tiles : List Polygon) (i : ℕ) (d : Polygon) :
    ∃ ss : List Polygon, ss.Sublist slivers ∧
      (absorb ops tiles slivers).getD i d = ss.foldl ops.union (tiles.getD i d) := by
  induction slivers generalizing tiles with
  | nil => exact ⟨[], List.Sublist.refl _, rfl⟩
  | cons s rest ih =>
    obtain ⟨ss, hsub, heq⟩ := ih (merge1 ops tiles s)
    have hstep : absorb ops tiles (s :: rest) = absorb ops (merge1 ops tiles s) rest := rfl
    rcases merge1_getD ops tiles s i d with hcase | hcase
    · exact ⟨ss, hsub.cons s, by rw [hstep, heq, hcase]⟩
    · refine ⟨s :: ss, hsub.cons₂ s, ?_⟩
      rw [hstep, heq, hcase]
      rfl

theorem merge1_area (ops : GeomOps) (ts : List Polygon) (s : Polygon)
    (hu : ∀ a b : Polygon, a.area ≤ (ops.union a b).area) :
    (∀ t ∈ ts, (100 : ℚ) ≤ t.area) → ∀ t ∈ merge1 ops ts s, (100 : ℚ) ≤ t.area := by
  induction ts with
  | nil => intro _ t ht; simp [merge1] at ht
  | cons t ts ih =>
    intro h u hu'
    rw [merge1] at hu'
    split at hu'
    · rcases List.mem_cons.1 hu' with rfl | hmem
      · exact le_trans (h t (List.mem_cons_self t ts)) (hu t s)
      · exact h u (List.mem_cons_of_mem t hmem)
    · rcases List.mem_cons.1 hu' with rfl | hmem
      · exact h u (List.mem_cons_self u ts)
      · exact ih (fun v hv => h v (List.mem_cons_of_mem t hv)) u hmem

theorem absorb_area (ops : GeomOps) (slivers tiles : List Polygon)
    (hu : ∀ a b : Polygon, a.area ≤ (ops.union a b).area)
    (ht : ∀ t ∈ tiles, (100 : ℚ) ≤ t.area) :
    ∀ t ∈ absorb ops tiles slivers, (100 : ℚ) ≤ t.area := by
  induction slivers generalizing tiles with
  | nil => exact ht
  | cons s rest ih =>
    show ∀ t ∈ absorb ops (merge1 ops tiles s) rest, (100 : ℚ) ≤ t.area
    exact ih (merge1 ops tiles s) (merge1_area ops tiles s hu ht)

theorem square100_area : square100.area = 10000 := by
  norm_num [square100, Polygon.area, shoelaceAux]

/-- C9: during sliver absorption every sliver is either unioned into one
existing tile in place or dropped, never appended and never merged into
another sliver: the tile list keeps its length, and the entry at every
position `i` is the original tile at `i` with some subsequence of the
slivers folded into it by union; consequently, when union does not shrink
area, merge targets always keep area `≥ 100` (the tile class), so sliver
merges cannot chain through slivers (`geom.py` lines 66-73). -/
theorem absorb_in_place (ops : GeomOps) (tiles slivers : List Polygon) (i : ℕ) (d : Polygon)
    (hu : ∀ a b : Polygon, a.area ≤ (ops.union a b).area)
    (ht : ∀ t ∈ tiles, (100 : ℚ) ≤ t.area) :
    (absorb ops tiles slivers).length = tiles.length
      ∧ (∃ ss : List Polygon, ss.Sublist slivers ∧
          (absorb ops tiles slivers).getD i d = ss.foldl ops.union (tiles.getD i d))
      ∧ ∀ t ∈ absorb ops tiles slivers, (100 : ℚ) ≤ t.area :=
  ⟨absorb_length ops tiles slivers, absorb_getD ops slivers tiles i d,
    absorb_area ops slivers tiles hu ht⟩

/-- Closed instance of `absorb_in_place` at one tile (the `(0,0)-(100,100)`
square, area `10000 ≥ 100`) and one sliver. -/
theorem absorb_in_place_witness :
    (absorb trivialOps [square100] [unitSquare]).length = 1
      ∧ (∃ ss : List Polygon, ss.Sublist [unitSquare] ∧
          (absorb trivialOps [square100] [unitSquare]).getD 0 unitSquare
            = ss.foldl trivialOps.union ([square100].getD 0 unitSquare))
      ∧ ∀ t ∈ absorb trivialOps [square100] [unitSquare], (100 : ℚ) ≤ t.area :=
  absorb_in_place trivialOps [square100] [unitSquare] 0 unitSquare
    (fun _ _ => le_rfl)
    (by
      intro t htm
      rw [List.mem_singleton] at htm
      rw [htm, square100_area]
      norm_num)

/-! ### Tile areas -/

theorem thinTriangle_bounds : thinTriangle.bounds = ⟨0, 0, 41, 40⟩ := by
  norm_num [thinTriangle, Polygon.bounds, List.foldl_cons, List.foldl_nil, min_def, max_def]

theorem thinTriangle_area : thinTriangle.area = 20 := by
  norm_num [thinTriangle, Polygon.area, shoelaceAux]

theorem splitDims_thinTriangle :
    splitDims thinTriangle Padding.none 256 = Except.ok (⟨0, 0, 41, 40⟩, 328, 320) := by
  rw [splitDims, thinTriangle_bounds]
  have hw : pyInt ((((⟨0, 0, 41, 40⟩ : Bounds).maxx - (⟨0, 0, 41, 40⟩ : Bounds).minx)) / (1/8))
      = 328 := pyInt_lit _ 328 (by norm_num)
  have hh : pyInt ((((⟨0, 0, 41, 40⟩ : Bounds).maxy - (⟨0, 0, 41, 40⟩ : Bounds).miny)) / (1/8))
      = 320 := pyInt_lit _ 320 (by norm_num)
  have := get_dims_none_ok ⟨0, 0, 41, 40⟩ (1/8) 256
    (by rw [hw]; norm_num) (by rw [hh]; norm_num)
  rw [this, hw, hh]

/-- C5 counterexample: on the no-cut-lines path `split_geom` returns the
input polygon unchanged with no area filtering, so a tile of area `< 100`
is returned.  The thin triangle `(0,0), (40,40), (41,40)` has area `20` but
bounds `(0,0,41,40)` wide enough (`328`/`320` resolver pixels `≥ 256`,
`≤ 4000`) to take the single-tile path; the path consults no geometry
operation, so the concrete `trivialOps` instance is immaterial. -/
theorem split_geom_returns_sliver_tile :
    split_geom trivialOps thinTriangle 1 4000 0 Padding.none 256
        = Except.ok [thinTriangle]
      ∧ thinTriangle.area < 100 := by
  constructor
  · refine split_geom_nil_lines trivialOps thinTriangle 1 4000 0 Padding.none 256
      ⟨0, 0, 41, 40⟩ 328 320 splitDims_thinTriangle (cutLines_nil _ _ _ _ _ ?_ ?_)
    · intro hcontra; exact absurd hcontra (by norm_num)
    · intro hcontra; exact absurd hcontra (by norm_num)
  · rw [thinTriangle_area]; norm_num

theorem tilePipeline_area (ops : GeomOps) (geometry : Polygon) (lines : List Line)
    (buffer : ℤ)
    (hu : ∀ a c : Polygon, a.area ≤ (ops.union a c).area)
    (hb : ∀ (g : Polygon) (d : ℤ), 0 ≤ d → g.area ≤ (ops.buffer g d).area)
    (h0 : 0 ≤ buffer) :
    ∀ t ∈ tilePipeline ops geometry lines buffer, (100 : ℚ) ≤ t.area := by
  intro t ht
  simp only [tilePipeline, List.mem_map] at ht
  obtain ⟨g, hg, rfl⟩ := ht
  refine le_trans ?_ (hb g buffer h0)
  refine absorb_area ops _ _ hu ?_ g hg
  intro u hmem
  exact of_decide_eq_true (List.mem_filter.1 hmem).2

/-- C5 amended: on the multi-tile path (at least one cut line), provided
the overlap buffer is nonnegative and the geometry capability's union and
buffering do not decrease area, every tile returned by `split_geom` has
area `≥ 100` — the area-`< 100` regions are filtered into the sliver class
and only ever merged into area-`≥ 100` tiles (`geom.py` lines 63-75).  (On
the no-cut-lines path the input is returned unfiltered, which is the
counterexample `split_geom_returns_sliver_tile`.) -/
theorem split_geom_multi_tile_min_area (ops : GeomOps) (geometry : Polygon) (res : ℚ)
    (max_len buffer : ℤ) (padding : Padding) (min_len : ℤ) (b : Bounds) (w h : ℤ)
    (tiles : List Polygon)
    (hd : splitDims geometry padding min_len = Except.ok (b, w, h))
    (hl : cutLines b res max_len w h ≠ [])
    (hu : ∀ a c : Polygon, a.area ≤ (ops.union a c).area)
    (hb : ∀ (g : Polygon) (d : ℤ), 0 ≤ d → g.area ≤ (ops.buffer g d).area)
    (h0 : 0 ≤ buffer)
    (hout : split_geom ops geometry res max_len buffer padding min_len = Except.ok tiles) :
    ∀ t ∈ tiles, (100 : ℚ) ≤ t.area := by
  have key : split_geom ops geometry res max_len buffer padding min_len
      = Except.ok (tilePipeline ops geometry (cutLines b res max_len w h) buffer) := by
    rw [split_geom, hd]
    simp [hl]
  rw [key] at hout
  injection hout with hout
  subst hout
  exact tilePipeline_area ops geometry _ buffer hu hb h0

theorem wideRect_bounds : wideRect.bounds = ⟨0, 0, 4001, 100⟩ := by
  norm_num [wideRect, Polygon.bounds, List.foldl_cons, List.foldl_nil, min_def, max_def]

theorem wideRect_area : wideRect.area = 400100 := by
  norm_num [wideRect, Polygon.area, shoelaceAux]

theorem splitDims_wideRect :
    splitDims wideRect Padding.none 256 = Except.ok (⟨0, 0, 4001, 100⟩, 32008, 800) := by
  rw [splitDims, wideRect_bounds]
  have hw : pyInt ((((⟨0, 0, 4001, 100⟩ : Bounds).maxx - (⟨0, 0, 4001, 100⟩ : Bounds).minx))
      / (1/8)) = 32008 := pyInt_lit _ 32008 (by norm_num)
  have hh : pyInt ((((⟨0, 0, 4001, 100⟩ : Bounds).maxy - (⟨0, 0, 4001, 100⟩ : Bounds).miny))
      / (1/8)) = 800 := pyInt_lit _ 800 (by norm_num)
  have := get_dims_none_ok ⟨0, 0, 4001, 100⟩ (1/8) 256
    (by rw [hw]; norm_num) (by rw [hh]; norm_num)
  rw [this, hw, hh]

theorem linspaceInterior_three : linspaceInterior 0 4001 3 = [4001/2] := by
  rw [linspaceInterior, show ((List.range 3).drop 1).dropLast = [1] from by decide]
  norm_num [List.map_cons, List.map_nil]

theorem cutLines_wideRect :
    cutLines ⟨0, 0, 4001, 100⟩ 1 4000 32008 800
      = [Line.mk (4001/2, 0) (4001/2, 100)] := by
  simp only [cutLines]
  rw [if_pos (by norm_num : (4000 : ℤ) < 32008), if_neg (by norm_num : ¬ ((4000 : ℤ) < 800))]
  rw [ceil_lit _ 2 (by norm_num) (by norm_num)]
  rw [show ((1 : ℤ) + 2).toNat = 3 from rfl, linspaceInterior_three]
  simp

theorem split_geom_wideRect :
    split_geom trivialOps wideRect 1 4000 0 Padding.none 256 = Except.ok [wideRect] := by
  rw [split_geom, splitDims_wideRect]
  norm_num [cutLines_wideRect, tilePipeline, absorb, merge1, trivialOps, wideRect_area,
    List.filter_cons, List.filter_nil, List.foldl_cons, List.foldl_nil,
    List.map_cons, List.map_nil, decide_eq_true_eq]

/-- Closed instance of `split_geom_multi_tile_min_area`: the
`(0,0)-(4001,100)` rectangle at resolution 1 with `max_len = 4000` takes
the multi-tile path (one vertical cut at `x = 4001/2`) and every returned
tile has area `≥ 100`. -/
theorem split_geom_multi_tile_min_area_witness : (100 : ℚ) ≤ wideRect.area :=
  split_geom_multi_tile_min_area trivialOps wideRect 1 4000 0 Padding.none 256
    ⟨0, 0, 4001, 100⟩ 32008 800 [wideRect]
    splitDims_wideRect
    (by rw [cutLines_wideRect]; exact List.cons_ne_nil _ _)
    (fun _ _ => le_rfl) (fun _ _ _ => le_rfl) le_rfl
    split_geom_wideRect
    wideRect (List.mem_singleton.mpr rfl)

/-! ### Cut-line layout -/

theorem range_inner (m : ℕ) :
    ((List.range (m + 2)).drop 1).dropLast = (List.range m).map (· + 1) := by
  rw [List.range_succ_eq_map, List.drop_succ_cons, List.drop_zero, List.range_succ,
    List.map_append, List.map_cons, List.map_nil, List.dropLast_concat]

theorem linspaceInterior_succ_succ (a b : ℚ) (m : ℕ) :
    linspaceInterior a b (m + 2) = evenCuts a b m := by
  rw [linspaceInterior, evenCuts, range_inner, List.map_map]
  refine List.map_congr_left fun j _ => ?_
  simp only [Function.comp_apply]
  push_cast
  try ring

theorem evenCuts_length (a b : ℚ) (m : ℕ) : (evenCuts a b m).length = m := by
  simp [evenCuts]

theorem evenCuts_mem (a b : ℚ) (m : ℕ) (hab : a < b) :
    ∀ x ∈ evenCuts a b m, a < x ∧ x < b := by
  intro x hx
  simp only [evenCuts, List.mem_map, List.mem_range] at hx
  obtain ⟨j, hj, rfl⟩ := hx
  have hm1 : (0 : ℚ) < (m : ℚ) + 1 := by positivity
  have hba : (0 : ℚ) < b - a := sub_pos.2 hab
  constructor
  · have hpos : (0 : ℚ) < ((j : ℚ) + 1) * (b - a) / ((m : ℚ) + 1) :=
      div_pos (mul_pos (by positivity) hba) hm1
    linarith
  · have hj' : ((j : ℚ) + 1) < (m : ℚ) + 1 := by
      have : (j : ℚ) < (m : ℚ) := by exact_mod_cast hj
      linarith
    have hlt : ((j : ℚ) + 1) * (b - a) / ((m : ℚ) + 1) < b - a := by
      rw [div_lt_iff₀ hm1]
      nlinarith
    linarith

theorem evenCuts_pairwise (a b : ℚ) (m : ℕ) (hab : a < b) :
    (evenCuts a b m).Pairwise (· < ·) := by
  rw [evenCuts]
  refine List.Pairwise.map _ ?_ (List.pairwise_lt_range m)
  intro j k hjk
  have hba : (0 : ℚ) < b - a := sub_pos.2 hab
  have hm1 : (0 : ℚ) < (m : ℚ) + 1 := by positivity
  have hjk' : ((j : ℚ) + 1) < (k : ℚ) + 1 := by
    have : (j : ℚ) < (k : ℚ) := by exact_mod_cast hjk
    linarith
  have := (div_lt_div_iff_of_pos_right hm1).2 (mul_lt_mul_of_pos_right hjk' hba)
  linarith

/-- C6: when `width > max_len`, the cut lines consist of exactly
`⌈side/res/max_len⌉ - 1` vertical lines (and analogously for the height),
all vertical lines before all horizontal lines, each group evenly spaced
(`evenCuts`), strictly between the bounds on its axis, spanning the full
other axis, and in increasing coordinate order (`geom.py` lines 48-56).
The `width`/`height` arguments are the resolver outputs that gate each
group (their value is the subject of C2, not of this claim). -/
theorem cutLines_layout (bnd : Bounds) (res : ℚ) (max_len w h : ℤ)
    (hres : 0 < res) (hml : 0 < max_len)
    (hx : bnd.minx < bnd.maxx) (hy : bnd.miny < bnd.maxy) :
    ∃ mx my : ℕ,
      (mx : ℤ) = ⌈(bnd.maxx - bnd.minx) / res / (max_len : ℚ)⌉ - 1
      ∧ (my : ℤ) = ⌈(bnd.maxy - bnd.miny) / res / (max_len : ℚ)⌉ - 1
      ∧ cutLines bnd res max_len w h =
          ((if max_len < w then evenCuts bnd.minx bnd.maxx mx else []).map
              fun x => Line.mk (x, bnd.miny) (x, bnd.maxy))
            ++ ((if max_len < h then evenCuts bnd.miny bnd.maxy my else []).map
              fun y => Line.mk (bnd.minx, y) (bnd.maxx, y))
      ∧ (evenCuts bnd.minx bnd.maxx mx).length = mx
      ∧ (∀ x ∈ evenCuts bnd.minx bnd.maxx mx, bnd.minx < x ∧ x < bnd.maxx)
      ∧ (evenCuts bnd.minx bnd.maxx mx).Pairwise (· < ·)
      ∧ (evenCuts bnd.miny bnd.maxy my).length = my
      ∧ (∀ y ∈ evenCuts bnd.miny bnd.maxy my, bnd.miny < y ∧ y < bnd.maxy)
      ∧ (evenCuts bnd.miny bnd.maxy my).Pairwise (· < ·) := by
  have hmlq : (0 : ℚ) < (max_len : ℚ) := by exact_mod_cast hml
  have hqx : (0 : ℚ) < (bnd.maxx - bnd.minx) / res / (max_len : ℚ) :=
    div_pos (div_pos (sub_pos.2 hx) hres) hmlq
  have hqy : (0 : ℚ) < (bnd.maxy - bnd.miny) / res / (max_len : ℚ) :=
    div_pos (div_pos (sub_pos.2 hy) hres) hmlq
  have hcx : 0 < ⌈(bnd.maxx - bnd.minx) / res / (max_len : ℚ)⌉ := Int.ceil_pos.2 hqx
  have hcy : 0 < ⌈(bnd.maxy - bnd.miny) / res / (max_len : ℚ)⌉ := Int.ceil_pos.2 hqy
  refine ⟨(⌈(bnd.maxx - bnd.minx) / res / (max_len : ℚ)⌉ - 1).toNat,
    (⌈(bnd.maxy - bnd.miny) / res / (max_len : ℚ)⌉ - 1).toNat,
    Int.toNat_of_nonneg (by omega), Int.toNat_of_nonneg (by omega), ?_,
    evenCuts_length _ _ _, evenCuts_mem _ _ _ hx, evenCuts_pairwise _ _ _ hx,
    evenCuts_length _ _ _, evenCuts_mem _ _ _ hy, evenCuts_pairwise _ _ _ hy⟩
  have hnx : (1 + ⌈(bnd.maxx - bnd.minx) / res / (max_len : ℚ)⌉).toNat
      = (⌈(bnd.maxx - bnd.minx) / res / (max_len : ℚ)⌉ - 1).toNat + 2 := by omega
  have hny : (1 + ⌈(bnd.maxy - bnd.miny) / res / (max_len : ℚ)⌉).toNat
      = (⌈(bnd.maxy - bnd.miny) / res / (max_len : ℚ)⌉ - 1).toNat + 2 := by omega
  simp only [cutLines]
  rw [hnx, hny]
  split_ifs <;> simp [linspaceInterior_succ_succ]

/-- Closed instance of `cutLines_layout` at bounds `(0,0,2,1)`,
`res = 1`, `max_len = 1`, `width = 5 > 1`, `height = 0 ≤ 1`. -/
theorem cutLines_layout_witness :
    ∃ mx my : ℕ,
      (mx : ℤ) = ⌈((2 : ℚ) - 0) / 1 / ((1 : ℤ) : ℚ)⌉ - 1
      ∧ (my : ℤ) = ⌈((1 : ℚ) - 0) / 1 / ((1 : ℤ) : ℚ)⌉ - 1
      ∧ cutLines ⟨0, 0, 2, 1⟩ 1 1 5 0 =
          ((if (1 : ℤ) < 5 then evenCuts 0 2 mx else []).map
              fun x => Line.mk (x, 0) (x, 1))
            ++ ((if (1 : ℤ) < 0 then evenCuts 0 1 my else []).map
              fun y => Line.mk (0, y) (2, y))
      ∧ (evenCuts 0 2 mx).length = mx
      ∧ (∀ x ∈ evenCuts 0 2 mx, (0 : ℚ) < x ∧ x < 2)
      ∧ (evenCuts 0 2 mx).Pairwise (· < ·)
      ∧ (evenCuts 0 1 my).length = my
      ∧ (∀ y ∈ evenCuts 0 1 my, (0 : ℚ) < y ∧ y < 1)
      ∧ (evenCuts 0 1 my).Pairwise (· < ·) :=
  cutLines_layout ⟨0, 0, 2, 1⟩ 1 1 5 0 (by norm_num) (by norm_num) (by norm_num) (by norm_num)

end Wmsget
